import Mathlib

/-!
Verification of the indicator / signal-layer engine of the repository
(`backend/indicators.py`) against its natural-language specification.

Modelling conventions (shallow embedding):
* Python floats that can be NaN are modelled as `FV := Option ℚ`
  (`none` = NaN / pandas missing value); IEEE comparisons against NaN are
  false, which `flt` / `fgt` reproduce.
* Price inputs are finite rationals (`List ℚ`); indicator series, which may
  contain NaN entries, are `List FV`.
* pandas operations are translated op by op: `Series.diff`,
  `Series.where`, `rolling(window).mean()` (defined from index `window-1`
  on), and `ewm(span, adjust=False).mean()` with its exact `old_wt`
  bookkeeping for interior NaNs (`ignore_na=False`).
* The division `rs = avg_gain / avg_loss` is embedded by `rsiAt`: the
  averages are means of nonnegative gains/losses, so the only IEEE special
  cases reachable are `g/0 = +inf` (RSI 100) and `0/0 = NaN` (RSI NaN).
* Python negative indices `xs[-1]`, `xs[-2]` and slices `xs[-k:]` become
  `getD (length - 1)`, `getD (length - 2)` and `drop (length - k)`; the
  clamping behaviour of `Nat` subtraction coincides with Python slicing
  for the list lengths that occur.
-/

/-- A Python float value: `none` models NaN (pandas missing value). -/
abbrev FV := Option ℚ

/-- IEEE `<` on possibly-NaN values: any comparison with NaN is false. -/
def flt (a b : FV) : Bool :=
  match a, b with
  | some x, some y => decide (x < y)
  | _, _ => false

/-- IEEE `>` on possibly-NaN values: any comparison with NaN is false. -/
def fgt (a b : FV) : Bool :=
  match a, b with
  | some x, some y => decide (y < x)
  | _, _ => false

/-- `series.iloc[i]` for an indicator series (in-range at every use site). -/
def getF (s : List FV) (i : ℕ) : FV := s.getD i none

/-- `Series.diff` on the close column: first entry NaN, then successive differences. -/
def diff (prices : List ℚ) : List FV :=
  (List.range prices.length).map
    (fun i => if i = 0 then none else some (prices.getD i 0 - prices.getD (i - 1) 0))

/-- `delta.where(delta > 0, 0)` pointwise: NaN compares false, so it maps to 0. -/
def gainOf : FV → ℚ
  | some x => if 0 < x then x else 0
  | none => 0

/-- `-delta.where(delta < 0, 0)` pointwise: NaN compares false, so it maps to 0. -/
def lossOf : FV → ℚ
  | some x => if x < 0 then -x else 0
  | none => 0

/-- `Series.rolling(window=n).mean()`: defined (mean of the last `n`
entries) from index `n-1` on, NaN before. -/
def rollingMean (xs : List ℚ) (n : ℕ) : List FV :=
  (List.range xs.length).map
    (fun i => if n ≤ i + 1 then some ((((xs.take (i + 1)).drop (i + 1 - n)).sum) / (n : ℚ)) else none)

/-- One entry of `rsi = 100 - 100/(1 + avg_gain/avg_loss)` under IEEE
semantics at the nonnegative averages that arise: `g/0 = +inf` gives RSI
100, `0/0 = NaN` gives NaN, otherwise the finite formula. -/
def rsiAt (g l : ℚ) : FV :=
  if l = 0 then (if g = 0 then none else some 100) else some (100 - 100 / (1 + g / l))

/-- The per-step gains `max(change, 0)` fed to the RSI average. -/
def rsiGains (prices : List ℚ) : List ℚ := (diff prices).map gainOf

/-- The per-step losses `max(-change, 0)` fed to the RSI average. -/
def rsiLosses (prices : List ℚ) : List ℚ := (diff prices).map lossOf

/-- `avg_gain = gain.rolling(window=period).mean()` in `calculate_rsi`. -/
def avg_gain_series (prices : List ℚ) (period : ℕ) : List FV :=
  rollingMean (rsiGains prices) period

/-- `avg_loss = loss.rolling(window=period).mean()` in `calculate_rsi`. -/
def avg_loss_series (prices : List ℚ) (period : ℕ) : List FV :=
  rollingMean (rsiLosses prices) period

/-- `calculate_rsi` of `backend/indicators.py` (lines 14-31): guard for
short input, per-step gains and losses, simple rolling-mean averages,
then the RSI formula pointwise (NaN-propagating). -/
def calculate_rsi (prices : List ℚ) (period : ℕ) : List FV :=
  if prices.length < period + 1 then List.replicate prices.length none
  else
    List.zipWith
      (fun g l =>
        match g, l with
        | some g, some l => rsiAt g l
        | _, _ => none)
      (avg_gain_series prices period) (avg_loss_series prices period)

/-- State of pandas `ewm(span, adjust=False, ignore_na=False).mean()`:
the running average (NaN before the first observation) and the current
weight of the old average. -/
structure EwmState where
  avg : FV
  oldWt : ℚ
deriving DecidableEq

/-- One step of pandas exponentially weighted mean, `adjust=False`,
`ignore_na=False`: a NaN input decays the old weight and keeps the
average; a valid input after the seed combines with weights
`old_wt*(1-α)` and `α` and resets the old weight to 1. -/
def ewmStep (α : ℚ) (st : EwmState) (x : FV) : EwmState :=
  match st.avg, x with
  | none, none => st
  | none, some v => ⟨some v, 1⟩
  | some y, none => ⟨some y, st.oldWt * (1 - α)⟩
  | some y, some v =>
    ⟨some ((st.oldWt * (1 - α) * y + α * v) / (st.oldWt * (1 - α) + α)), 1⟩

/-- Runs `ewmStep` along the list, emitting the running average. -/
def ewmGo (α : ℚ) (st : EwmState) : List FV → List FV
  | [] => []
  | x :: xs => (ewmStep α st x).avg :: ewmGo α (ewmStep α st x) xs

/-- `Series.ewm(span, adjust=False).mean()` with `α` already computed. -/
def ewmMean (α : ℚ) (xs : List FV) : List FV := ewmGo α ⟨none, 1⟩ xs

/-- `calculate_ema` of `backend/indicators.py` (lines 5-12): all-NaN series
of the same length when the input is shorter than the period, otherwise
`ewm(span=period, adjust=False).mean()`, i.e. `α = 2/(period+1)` seeded by
the first value. -/
def calculate_ema (prices : List ℚ) (period : ℕ) : List FV :=
  if prices.length < period then List.replicate prices.length none
  else ewmMean (2 / ((period : ℚ) + 1)) (prices.map some)

/-- `calculate_smoothed_rsi` of `backend/indicators.py` (lines 33-40):
EMA smoothing (`ewm(span=smooth_period, adjust=False)`) of the RSI series. -/
def calculate_smoothed_rsi (prices : List ℚ) (rsi_period smooth_period : ℕ) : List FV :=
  ewmMean (2 / ((smooth_period : ℚ) + 1)) (calculate_rsi prices rsi_period)

/-- Modelled from the spec: `RMA(series, period)`, Wilder smoothing with
`α` passed in, recurrence `rma[i] = rma[i-1] + α*(x[i] - rma[i-1])`. -/
def rmaGo (α y : ℚ) : List ℚ → List ℚ
  | [] => []
  | x :: xs => (y + α * (x - y)) :: rmaGo α (y + α * (x - y)) xs

/-- Modelled from the spec: Wilder smoothing seeded by the first value. -/
def rmaSpec (α : ℚ) : List ℚ → List ℚ
  | [] => []
  | x :: xs => x :: rmaGo α x xs

/-- Modelled from the spec: the RSI that claim C2 describes, in which the
gain and loss averages are Wilder smoothings (`α = 1/period`, seeded by
the first value) of the same per-step gains and losses, combined by the
same `rsi = 100 - 100/(1 + avg_gain/avg_loss)` formula. The repository
code this claim describes is absent from the checked sources (its tests
reference a `calculate_rma` that does not exist there). -/
def rsiWilderSpec (prices : List ℚ) (period : ℕ) : List FV :=
  if prices.length < period + 1 then List.replicate prices.length none
  else
    List.zipWith (fun g l => rsiAt g l)
      (rmaSpec (1 / (period : ℚ)) (rsiGains prices))
      (rmaSpec (1 / (period : ℚ)) (rsiLosses prices))

/-- One `is_peak` check of `find_peaks_troughs`: no point up to `order`
steps on either side is strictly greater (an equal neighbour does not
disqualify, and a NaN neighbour compares false). -/
def is_peak (s : List FV) (i order : ℕ) : Bool :=
  (List.range' 1 order).all
    (fun j => !(fgt (getF s (i - j)) (getF s i)) && !(fgt (getF s (i + j)) (getF s i)))

/-- One `is_trough` check of `find_peaks_troughs`: no point up to `order`
steps on either side is strictly smaller. -/
def is_trough (s : List FV) (i order : ℕ) : Bool :=
  (List.range' 1 order).all
    (fun j => !(flt (getF s (i - j)) (getF s i)) && !(flt (getF s (i + j)) (getF s i)))

/-- `find_peaks_troughs` of `backend/indicators.py` (lines 42-71): scans
`i` in `range(order, len - order)`, skips NaN entries, and collects local
extrema in scan order. -/
def find_peaks_troughs (s : List FV) (order : ℕ) : List ℕ × List ℕ :=
  let idxs := List.range' order (s.length - order - order)
  (idxs.filter (fun i => (getF s i).isSome && is_peak s i order),
   idxs.filter (fun i => (getF s i).isSome && is_trough s i order))

/-- The four boolean flags returned by `detect_divergence`. -/
structure DivergenceResult where
  bullish_regular : Bool
  bullish_hidden : Bool
  bearish_regular : Bool
  bearish_hidden : Bool
deriving DecidableEq

/-- `detect_divergence` of `backend/indicators.py` (lines 73-150): works on
the last `lookback` entries, finds RSI peaks/troughs with `order = 2`,
and compares price and RSI at the two most recent troughs (resp. peaks)
when the most recent one lies within the last 5 candles. -/
def detect_divergence (prices : List ℚ) (rsi_values : List FV) (lookback : ℕ) :
    DivergenceResult :=
  if prices.length < lookback then ⟨false, false, false, false⟩
  else
    let price_s := prices.drop (prices.length - lookback)
    let rsi_s := rsi_values.drop (rsi_values.length - lookback)
    let pt := find_peaks_troughs rsi_s 2
    let peaks := pt.1
    let troughs := pt.2
    let bull : Bool × Bool :=
      if 2 ≤ troughs.length then
        let last_t := troughs.getD (troughs.length - 1) 0
        let prev_t := troughs.getD (troughs.length - 2) 0
        if (rsi_s.length : ℤ) - 5 ≤ (last_t : ℤ) then
          let p_last := price_s.getD last_t 0
          let p_prev := price_s.getD prev_t 0
          let r_last := getF rsi_s last_t
          let r_prev := getF rsi_s prev_t
          (decide (p_last < p_prev) && fgt r_last r_prev,
           decide (p_prev < p_last) && flt r_last r_prev)
        else (false, false)
      else (false, false)
    let bear : Bool × Bool :=
      if 2 ≤ peaks.length then
        let last_p := peaks.getD (peaks.length - 1) 0
        let prev_p := peaks.getD (peaks.length - 2) 0
        if (rsi_s.length : ℤ) - 5 ≤ (last_p : ℤ) then
          let p_last := price_s.getD last_p 0
          let p_prev := price_s.getD prev_p 0
          let r_last := getF rsi_s last_p
          let r_prev := getF rsi_s prev_p
          (decide (p_prev < p_last) && flt r_last r_prev,
           decide (p_last < p_prev) && fgt r_last r_prev)
        else (false, false)
      else (false, false)
    ⟨bull.1, bull.2, bear.1, bear.2⟩

/-- The pair of flags returned by `check_ema_cross_retest`. -/
structure CrossRetest where
  long_setup : Bool
  short_setup : Bool
deriving DecidableEq

/-- The upward-crossing test at window index `i`: fast EMA below slow EMA
at `i-1` and above at `i`. -/
def crossUpAt (e13 e21 : List FV) (i : ℕ) : Bool :=
  flt (getF e13 (i - 1)) (getF e21 (i - 1)) && fgt (getF e13 i) (getF e21 i)

/-- The downward-crossing test at window index `i`. -/
def crossDownAt (e13 e21 : List FV) (i : ℕ) : Bool :=
  fgt (getF e13 (i - 1)) (getF e21 (i - 1)) && flt (getF e13 i) (getF e21 i)

/-- `xs[-lookback:]` on an indicator series (`p_recent` and friends). -/
def winF (xs : List FV) (lookback : ℕ) : List FV := xs.drop (xs.length - lookback)

/-- `xs[-lookback:]` on a price list. -/
def winQ (xs : List ℚ) (lookback : ℕ) : List ℚ := xs.drop (xs.length - lookback)

/-- The retest test at window index `i`:
`abs(p_recent[i] - e13_recent[i]) / p_recent[i] < 0.005`, false whenever
the EMA entry is NaN or the price is 0 (IEEE `inf`/NaN compares false). -/
def retestAt (p : List ℚ) (e : List FV) (i : ℕ) : Bool :=
  match getF e i with
  | some ev => decide (p.getD i 0 ≠ 0 ∧ |p.getD i 0 - ev| / p.getD i 0 < 1 / 200)
  | none => false

/-- `check_ema_cross_retest` of `backend/indicators.py` (lines 152-207):
on the last `lookback` points, takes the first upward (resp. downward)
crossing found scanning from the oldest point of the window, then sets
the flag when some point from the crossing to the end of the window
retests the fast EMA within 0.5 percent of price. -/
def check_ema_cross_retest (prices : List ℚ) (ema13 ema21 : List FV) (lookback : ℕ) :
    CrossRetest :=
  if prices.length < lookback then ⟨false, false⟩
  else
    ⟨match (List.range' 1 (lookback - 1)).find?
        (fun i => crossUpAt (winF ema13 lookback) (winF ema21 lookback) i) with
     | some c => (List.range' c (lookback - c)).any
        (fun i => retestAt (winQ prices lookback) (winF ema13 lookback) i)
     | none => false,
     match (List.range' 1 (lookback - 1)).find?
        (fun i => crossDownAt (winF ema13 lookback) (winF ema21 lookback) i) with
     | some c => (List.range' c (lookback - c)).any
        (fun i => retestAt (winQ prices lookback) (winF ema13 lookback) i)
     | none => false⟩

/-- The result record of `detect_signal_layer`. -/
structure SignalResult where
  long_layer : ℕ
  short_layer : ℕ
  long_signal : Option String
  short_signal : Option String
deriving DecidableEq

/-- `xs[-1]` on an indicator series. -/
def last1 (l : List FV) : FV := l.getD (l.length - 1) none

/-- `xs[-2]` on an indicator series. -/
def last2 (l : List FV) : FV := l.getD (l.length - 2) none

/-- `rsi_cross_up_srsi` of `detect_signal_layer`: previous RSI below the
previous smoothed RSI and current RSI above the current smoothed RSI,
both read at the last two indices. -/
def rsi_cross_up_srsi (r s : List FV) : Bool :=
  flt (last2 r) (last2 s) && fgt (last1 r) (last1 s)

/-- `rsi_cross_down_srsi` of `detect_signal_layer`. -/
def rsi_cross_down_srsi (r s : List FV) : Bool :=
  fgt (last2 r) (last2 s) && flt (last1 r) (last1 s)

/-- `ema_cross_up` of `detect_signal_layer` (instant cross at the last bar). -/
def ema_cross_up_now (a b : List FV) : Bool :=
  flt (last2 a) (last2 b) && fgt (last1 a) (last1 b)

/-- `ema_cross_down` of `detect_signal_layer`. -/
def ema_cross_down_now (a b : List FV) : Bool :=
  fgt (last2 a) (last2 b) && flt (last1 a) (last1 b)

/-- `ema_bullish_cross_retest` of `detect_signal_layer`. -/
def ema_long_retest (p : List ℚ) (a b : List FV) : Bool :=
  (check_ema_cross_retest p a b 10).long_setup

/-- `ema_bearish_cross_retest` of `detect_signal_layer`. -/
def ema_short_retest (p : List ℚ) (a b : List FV) : Bool :=
  (check_ema_cross_retest p a b 10).short_setup

/-- `has_bullish_div` of `detect_signal_layer`: regular or hidden. -/
def has_bullish_div (p : List ℚ) (r : List FV) : Bool :=
  (detect_divergence p r 30).bullish_regular || (detect_divergence p r 30).bullish_hidden

/-- `has_bearish_div` of `detect_signal_layer`: regular or hidden. -/
def has_bearish_div (p : List ℚ) (r : List FV) : Bool :=
  (detect_divergence p r 30).bearish_regular || (detect_divergence p r 30).bearish_hidden

/-- `l5_long` of `detect_signal_layer` (line 267). -/
def l5_long_cond (p : List ℚ) (a b r s : List FV) : Bool :=
  (ema_long_retest p a b || ema_cross_up_now a b) && flt (last1 r) (some 30) &&
    rsi_cross_up_srsi r s && has_bullish_div p r

/-- `l5_short` of `detect_signal_layer` (line 268). -/
def l5_short_cond (p : List ℚ) (a b r s : List FV) : Bool :=
  (ema_short_retest p a b || ema_cross_down_now a b) && fgt (last1 r) (some 70) &&
    rsi_cross_down_srsi r s && has_bearish_div p r

/-- `l4_long` of `detect_signal_layer` (line 280). -/
def l4_long_cond (p : List ℚ) (a b r : List FV) : Bool :=
  (ema_long_retest p a b || ema_cross_up_now a b) && flt (last1 r) (some 30) &&
    has_bullish_div p r

/-- `l4_short` of `detect_signal_layer` (line 286). -/
def l4_short_cond (p : List ℚ) (a b r : List FV) : Bool :=
  (ema_short_retest p a b || ema_cross_down_now a b) && fgt (last1 r) (some 70) &&
    has_bearish_div p r

/-- `l3_long` of `detect_signal_layer` (line 294). -/
def l3_long_cond (r s : List FV) : Bool :=
  flt (last1 r) (some 30) && rsi_cross_up_srsi r s

/-- `l3_short` of `detect_signal_layer` (line 300). -/
def l3_short_cond (r s : List FV) : Bool :=
  fgt (last1 r) (some 70) && rsi_cross_down_srsi r s

/-- `l2_long` of `detect_signal_layer` (line 308). -/
def l2_long_cond (p : List ℚ) (r : List FV) : Bool :=
  flt (last1 r) (some 30) && has_bullish_div p r

/-- `l2_short` of `detect_signal_layer` (line 314). -/
def l2_short_cond (p : List ℚ) (r : List FV) : Bool :=
  fgt (last1 r) (some 70) && has_bearish_div p r

/-- The sequential rule section of `detect_signal_layer` (lines 261-331):
starts from the zero result; layer 5 writes unconditionally, every later
layer only when the side is still 0, mirroring the
layer-still-zero re-checks of the source. -/
def runLayers (b5L b5S b4L b4S b3L b3S b2L b2S b1L b1S : Bool) : SignalResult :=
  let r0 : SignalResult := ⟨0, 0, none, none⟩
  let r1 := if b5L then { r0 with long_layer := 5, long_signal := some "STRONG_LONG (L5)" } else r0
  let r2 := if b5S then { r1 with short_layer := 5, short_signal := some "STRONG_SHORT (L5)" } else r1
  let r3 := if r2.long_layer = 0 then
      (if b4L then { r2 with long_layer := 4, long_signal := some "LONG (L4)" } else r2) else r2
  let r4 := if r3.short_layer = 0 then
      (if b4S then { r3 with short_layer := 4, short_signal := some "SHORT (L4)" } else r3) else r3
  let r5 := if r4.long_layer = 0 then
      (if b3L then { r4 with long_layer := 3, long_signal := some "WEAK_LONG (L3)" } else r4) else r4
  let r6 := if r5.short_layer = 0 then
      (if b3S then { r5 with short_layer := 3, short_signal := some "WEAK_SHORT (L3)" } else r5) else r5
  let r7 := if r6.long_layer = 0 then
      (if b2L then { r6 with long_layer := 2, long_signal := some "POTENTIAL_LONG (L2)" } else r6) else r6
  let r8 := if r7.short_layer = 0 then
      (if b2S then { r7 with short_layer := 2, short_signal := some "POTENTIAL_SHORT (L2)" } else r7) else r7
  let r9 := if r8.long_layer = 0 then
      (if b1L then { r8 with long_layer := 1, long_signal := some "EMA_LONG (L1)" } else r8) else r8
  if r9.short_layer = 0 then
      (if b1S then { r9 with short_layer := 1, short_signal := some "EMA_SHORT (L1)" } else r9) else r9

/-- `detect_signal_layer` of `backend/indicators.py` (lines 209-331):
guard `len(prices) < 30`, then the five-layer rule chain built from the
current-bar (`[-1]`) and previous-bar (`[-2]`) conditions, the EMA
cross-retest flags and the divergence flags. -/
def detect_signal_layer (prices : List ℚ) (ema_13 ema_21 rsi_14 smoothed_rsi : List FV) :
    SignalResult :=
  if prices.length < 30 then ⟨0, 0, none, none⟩
  else
    runLayers
      (l5_long_cond prices ema_13 ema_21 rsi_14 smoothed_rsi)
      (l5_short_cond prices ema_13 ema_21 rsi_14 smoothed_rsi)
      (l4_long_cond prices ema_13 ema_21 rsi_14)
      (l4_short_cond prices ema_13 ema_21 rsi_14)
      (l3_long_cond rsi_14 smoothed_rsi)
      (l3_short_cond rsi_14 smoothed_rsi)
      (l2_long_cond prices rsi_14)
      (l2_short_cond prices rsi_14)
      (ema_long_retest prices ema_13 ema_21)
      (ema_short_retest prices ema_13 ema_21)

/-- The fixed label paired with each long layer value. -/
def longLabel : ℕ → Option String
  | 1 => some "EMA_LONG (L1)"
  | 2 => some "POTENTIAL_LONG (L2)"
  | 3 => some "WEAK_LONG (L3)"
  | 4 => some "LONG (L4)"
  | 5 => some "STRONG_LONG (L5)"
  | _ => none

/-- The fixed label paired with each short layer value. -/
def shortLabel : ℕ → Option String
  | 1 => some "EMA_SHORT (L1)"
  | 2 => some "POTENTIAL_SHORT (L2)"
  | 3 => some "WEAK_SHORT (L3)"
  | 4 => some "SHORT (L4)"
  | 5 => some "STRONG_SHORT (L5)"
  | _ => none

/-- Modelled from the spec (claim C6 wording): same window, same crossing
and retest tests, but selecting the MOST RECENT upward (resp. downward)
crossing of the window instead of the first one found. -/
def crossRetestRecentSpec (prices : List ℚ) (ema13 ema21 : List FV) (lookback : ℕ) :
    CrossRetest :=
  if prices.length < lookback then ⟨false, false⟩
  else
    ⟨match ((List.range' 1 (lookback - 1)).filter
        (fun i => crossUpAt (winF ema13 lookback) (winF ema21 lookback) i)).getLast? with
     | some c =>
        decide (∃ i ∈ Finset.Ico c lookback,
          retestAt (winQ prices lookback) (winF ema13 lookback) i = true)
     | none => false,
     match ((List.range' 1 (lookback - 1)).filter
        (fun i => crossDownAt (winF ema13 lookback) (winF ema21 lookback) i)).getLast? with
     | some c =>
        decide (∃ i ∈ Finset.Ico c lookback,
          retestAt (winQ prices lookback) (winF ema13 lookback) i = true)
     | none => false⟩

/-- The amended reading of claim C6: the EARLIEST crossing of each
direction in the window (the first one met scanning from the oldest
point) is selected, and the flag is set exactly when some index from that
crossing to the end of the window passes the retest. -/
def crossRetestFirstSpec (prices : List ℚ) (ema13 ema21 : List FV) (lookback : ℕ) :
    CrossRetest :=
  if prices.length < lookback then ⟨false, false⟩
  else
    ⟨match ((List.range' 1 (lookback - 1)).filter
        (fun i => crossUpAt (winF ema13 lookback) (winF ema21 lookback) i)).head? with
     | some c =>
        decide (∃ i ∈ Finset.Ico c lookback,
          retestAt (winQ prices lookback) (winF ema13 lookback) i = true)
     | none => false,
     match ((List.range' 1 (lookback - 1)).filter
        (fun i => crossDownAt (winF ema13 lookback) (winF ema21 lookback) i)).head? with
     | some c =>
        decide (∃ i ∈ Finset.Ico c lookback,
          retestAt (winQ prices lookback) (winF ema13 lookback) i = true)
     | none => false⟩

/-- Modelled from the spec (claim C7 wording): index `i` is a peak iff
`series[i]` is strictly greater than each of the `order` points on both
sides, so a tie with any neighbour disqualifies it. -/
def strictPeakSpec (s : List FV) (i order : ℕ) : Bool :=
  (List.range' 1 order).all
    (fun j => fgt (getF s i) (getF s (i - j)) && fgt (getF s i) (getF s (i + j)))

/-- A 30-bar input: constant prices, equal constant EMAs (no crosses), and
an RSI that dips to 20 then recovers to 25 above the smoothed RSI. -/
def exPrices : List ℚ := List.replicate 30 100

/-- Constant EMA series used with `exPrices`: no cross can occur. -/
def exEma : List FV := List.replicate 30 (some 1)

/-- RSI input whose last two entries are 20 and 25. -/
def exRsiA : List FV := List.replicate 28 (some 50) ++ [some 20, some 25]

/-- Same as `exRsiA` except for the entry at the final index (50 instead
of 25). -/
def exRsiB : List FV := List.replicate 28 (some 50) ++ [some 20, some 50]

/-- Smoothed-RSI input whose last two entries are 22 and 24. -/
def exSrsi : List FV := List.replicate 28 (some 50) ++ [some 22, some 24]

/-- 30 constant prices with a lower low at index 26 (80) than at index 10
(90): price makes a lower low across the two RSI troughs. -/
def c5Prices : List ℚ :=
  [100,100,100,100,100,100,100,100,100,100,
   90,100,100,100,100,100,100,100,100,100,
   100,100,100,100,100,100,80,100,100,100]

/-- An RSI series with confirmed troughs at indices 10 (value 20) and 26
(value 25, a higher low), ending at 36: a regular bullish divergence with
current RSI strictly between 30 and 40. -/
def c5Rsi : List FV :=
  [some 40, some 41, some 42, some 43, some 44, some 45, some 46, some 47, some 48, some 49,
   some 20, some 51, some 52, some 53, some 54, some 55, some 56, some 57, some 58, some 59,
   some 60, some 61, some 62, some 63, some 64, some 65, some 25, some 67, some 35, some 36]

/-- Constant smoothed RSI used with `c5Rsi`: no RSI/SRSI cross fires. -/
def c5Srsi : List FV := List.replicate 30 (some 50)

/-- Prices for the `check_ema_cross_retest` window: far from the fast EMA
everywhere except index 3, which retests it exactly. -/
def c6Prices : List ℚ := [200,200,200,101,200,200,200,200,200,200]

/-- A fast EMA that crosses up at indices 2 and 7 and down at index 5:
the retest at index 3 follows only the EARLIEST upward crossing. -/
def c6E13 : List FV :=
  [some 99, some 99, some 101, some 101, some 101, some 99, some 99, some 101, some 101, some 101]

/-- Constant slow EMA at 100. -/
def c6E21 : List FV := List.replicate 10 (some 100)

/-- The pivot example series of the spec:
`[10,12,14,16,18,20,18,16,14,12,10]`. -/
def c7Ex : List FV :=
  [some 10, some 12, some 14, some 16, some 18, some 20, some 18, some 16, some 14, some 12, some 10]

/-- A plateau series `[0,0,5,5,5,0,0]`: every plateau index ties with its
neighbours. -/
def c7Tie : List FV := [some 0, some 0, some 5, some 5, some 5, some 0, some 0]

/-- Strictly increasing 15-price series: no losses, so the RSI hits 100. -/
def c8L : List ℚ := [0,1,2,3,4,5,6,7,8,9,10,11,12,13,14]


attribute [local semireducible] Rat.mul Rat.inv Rat.add Rat.sub

set_option maxRecDepth 8000 in
/-- C1, counterexample: with matching-length inputs of length 30 (< 50),
`detect_signal_layer` does NOT return the all-zero result — the rules are
evaluated and fire layer 3 — so the guard threshold is not 50. -/
theorem c1_counterexample :
    exPrices.length = 30 ∧ exEma.length = 30 ∧ exRsiA.length = 30 ∧ exSrsi.length = 30 ∧
    exPrices.length < 50 ∧
    detect_signal_layer exPrices exEma exEma exRsiA exSrsi ≠ ⟨0, 0, none, none⟩ := by
  decide

set_option maxRecDepth 8000 in
/-- C2, evaluation at the failing input: for prices `[10,12,11,13]` with
period 2, `calculate_rsi` uses simple rolling means (value 200/3 at the
last two indices), while the Wilder/RMA computation the claim and the
repository tests describe yields 50 and 250/3 there. -/
theorem c2_code_eval :
    calculate_rsi [10, 12, 11, 13] 2 = [none, some 100, some (200 / 3), some (200 / 3)] ∧
    rsiWilderSpec [10, 12, 11, 13] 2 = [none, some 100, some 50, some (250 / 3)] ∧
    rsiWilderSpec [10, 12, 11, 13] 2 ≠ calculate_rsi [10, 12, 11, 13] 2 := by
  decide

set_option maxRecDepth 8000 in
/-- C3, counterexample: on 15 constant prices with period 14, both
averages at index 14 (past warm-up) are 0, and the RSI there is the NaN
sentinel, not 50 — so a position past warm-up can be undefined. -/
theorem c3_counterexample :
    (avg_gain_series (List.replicate 15 (100 : ℚ)) 14).getD 14 none = some 0 ∧
    (avg_loss_series (List.replicate 15 (100 : ℚ)) 14).getD 14 none = some 0 ∧
    (List.replicate 15 (100 : ℚ)).length = 14 + 1 ∧
    (calculate_rsi (List.replicate 15 (100 : ℚ)) 14).getD 14 none = none := by
  decide

set_option maxRecDepth 8000 in
/-- C4, counterexample: two input quintuples that agree everywhere except
at the final index of the RSI series produce different results, so the
classifier does read the most recent bar, not only index -2. -/
theorem c4_counterexample :
    exRsiA.dropLast = exRsiB.dropLast ∧ exRsiA.length = exRsiB.length ∧ exRsiA ≠ exRsiB ∧
    detect_signal_layer exPrices exEma exEma exRsiA exSrsi ≠
      detect_signal_layer exPrices exEma exEma exRsiB exSrsi := by
  decide

set_option maxRecDepth 8000 in
/-- C4, amended: the result of `detect_signal_layer` can depend on the
values stored at the final index — two matching-length inputs differing
only in the last RSI entry give different results. -/
theorem c4_theorem :
    ∃ (p : List ℚ) (e13 e21 r r' s : List FV),
      r.dropLast = r'.dropLast ∧ r.length = r'.length ∧
      detect_signal_layer p e13 e21 r s ≠ detect_signal_layer p e13 e21 r' s :=
  ⟨exPrices, exEma, exEma, exRsiA, exRsiB, exSrsi, by decide, by decide, by decide⟩

set_option maxRecDepth 8000 in
/-- C5, counterexample: a 30-bar input with a regular bullish divergence
and current RSI 36 (< 40): the claimed Rule 2 condition holds, yet the
code reports `long_layer = 0`, because its threshold is RSI < 30. -/
theorem c5_counterexample :
    (detect_divergence c5Prices c5Rsi 30).bullish_regular = true ∧
    flt (last1 c5Rsi) (some 40) = true ∧
    (detect_signal_layer c5Prices exEma exEma c5Rsi c5Srsi).long_layer = 0 := by
  decide

set_option maxRecDepth 8000 in
/-- C6, counterexample: with an upward crossing at window index 2 followed
by a retest at index 3 and a later upward crossing at index 7 with no
retest after it, the code (earliest crossing) sets `long_setup` while the
most-recent-crossing reading of the claim does not. -/
theorem c6_counterexample :
    check_ema_cross_retest c6Prices c6E13 c6E21 10 ≠
      crossRetestRecentSpec c6Prices c6E13 c6E21 10 := by
  decide

set_option maxRecDepth 8000 in
/-- C7, counterexample: on the plateau series `[0,0,5,5,5,0,0]` with
order 2, index 2 ties with its neighbours — the claim says a tie
disqualifies a peak — yet `find_peaks_troughs` reports it as a peak. -/
theorem c7_counterexample :
    2 ∈ (find_peaks_troughs c7Tie 2).1 ∧ strictPeakSpec c7Tie 2 2 = false := by
  decide

/-- In every branch of the rule chain, the signal label of each side is
the fixed label of the layer value of that side. -/
theorem runLayers_label (b5L b5S b4L b4S b3L b3S b2L b2S b1L b1S : Bool) :
    (runLayers b5L b5S b4L b4S b3L b3S b2L b2S b1L b1S).long_signal =
      longLabel (runLayers b5L b5S b4L b4S b3L b3S b2L b2S b1L b1S).long_layer ∧
    (runLayers b5L b5S b4L b4S b3L b3S b2L b2S b1L b1S).short_signal =
      shortLabel (runLayers b5L b5S b4L b4S b3L b3S b2L b2S b1L b1S).short_layer := by
  cases b5L <;> cases b5S <;> cases b4L <;> cases b4S <;> cases b3L <;> cases b3S <;>
    cases b2L <;> cases b2S <;> cases b1L <;> cases b1S <;> exact ⟨rfl, rfl⟩

/-- The rule chain yields layer 2 on a side exactly when the layer-2
condition of that side holds and none of the higher conditions does. -/
theorem runLayers_layer2 (b5L b5S b4L b4S b3L b3S b2L b2S b1L b1S : Bool) :
    ((runLayers b5L b5S b4L b4S b3L b3S b2L b2S b1L b1S).long_layer = 2 ↔
      b2L = true ∧ b5L = false ∧ b4L = false ∧ b3L = false) ∧
    ((runLayers b5L b5S b4L b4S b3L b3S b2L b2S b1L b1S).short_layer = 2 ↔
      b2S = true ∧ b5S = false ∧ b4S = false ∧ b3S = false) := by
  cases b5L <;> cases b5S <;> cases b4L <;> cases b4S <;> cases b3L <;> cases b3S <;>
    cases b2L <;> cases b2S <;> cases b1L <;> cases b1S <;> exact ⟨by decide, by decide⟩

/-- C1, amended: the minimum-data guard of `detect_signal_layer` is
length < 30 (not 50): any shorter input returns both layers 0 and both
signals absent before any rule is evaluated. -/
theorem c1_theorem (p : List ℚ) (a b r s : List FV) (h : p.length < 30) :
    detect_signal_layer p a b r s = ⟨0, 0, none, none⟩ := by
  unfold detect_signal_layer
  rw [if_pos h]

/-- C1, witness: the amended guard theorem applied to empty inputs. -/
theorem c1_witness :
    ([] : List ℚ).length < 30 ∧ detect_signal_layer [] [] [] [] [] = ⟨0, 0, none, none⟩ :=
  ⟨by decide, c1_theorem [] [] [] [] [] (by decide)⟩

/-- C5, amended: layer 2 fires long exactly when the input passes the
guard, current RSI < 30 with a bullish divergence (regular or hidden),
and no higher rule fired; short side mirrored with RSI > 70 and bearish
divergence. -/
theorem c5_theorem (p : List ℚ) (a b r s : List FV) :
    ((detect_signal_layer p a b r s).long_layer = 2 ↔
      ¬p.length < 30 ∧ l2_long_cond p r = true ∧ l5_long_cond p a b r s = false ∧
        l4_long_cond p a b r = false ∧ l3_long_cond r s = false) ∧
    ((detect_signal_layer p a b r s).short_layer = 2 ↔
      ¬p.length < 30 ∧ l2_short_cond p r = true ∧ l5_short_cond p a b r s = false ∧
        l4_short_cond p a b r = false ∧ l3_short_cond r s = false) := by
  unfold detect_signal_layer
  by_cases h : p.length < 30
  · rw [if_pos h]
    exact ⟨⟨fun h2 => absurd h2 (by decide), fun hr => absurd h hr.1⟩,
           ⟨fun h2 => absurd h2 (by decide), fun hr => absurd h hr.1⟩⟩
  · rw [if_neg h]
    have hr := runLayers_layer2 (l5_long_cond p a b r s) (l5_short_cond p a b r s)
      (l4_long_cond p a b r) (l4_short_cond p a b r) (l3_long_cond r s) (l3_short_cond r s)
      (l2_long_cond p r) (l2_short_cond p r) (ema_long_retest p a b) (ema_short_retest p a b)
    have hg : (¬p.length < 30) ↔ True := iff_true_intro h
    exact ⟨hr.1.trans (by rw [hg, true_and]), hr.2.trans (by rw [hg, true_and])⟩

/-- C9: when the input is shorter than the period, `calculate_ema`
returns an all-NaN series of exactly the length of the input. -/
theorem c9_theorem (p : List ℚ) (period : ℕ) (h : p.length < period) :
    calculate_ema p period = List.replicate p.length none ∧
    (calculate_ema p period).length = p.length := by
  unfold calculate_ema
  rw [if_pos h]
  exact ⟨rfl, by simp⟩

/-- C9, witness: the guard theorem applied to a single price with period 5. -/
theorem c9_witness :
    ([(100 : ℚ)]).length < 5 ∧ calculate_ema [(100 : ℚ)] 5 = List.replicate 1 none :=
  ⟨by decide, (c9_theorem [(100 : ℚ)] 5 (by decide)).1⟩

/-- C10: for every input, the signal of each side is absent exactly when
the layer of that side is 0, and a nonzero layer k is always paired with
its fixed label — `long_signal = longLabel long_layer` and likewise for the short
side. -/
theorem c10_theorem (p : List ℚ) (a b r s : List FV) :
    (detect_signal_layer p a b r s).long_signal =
      longLabel (detect_signal_layer p a b r s).long_layer ∧
    (detect_signal_layer p a b r s).short_signal =
      shortLabel (detect_signal_layer p a b r s).short_layer := by
  unfold detect_signal_layer
  split
  · exact ⟨rfl, rfl⟩
  · exact runLayers_label _ _ _ _ _ _ _ _ _ _

/-- Reading an all-NaN indicator series at any index gives NaN. -/
theorem getD_replicate_none (n i : ℕ) : (List.replicate n (none : FV)).getD i none = none := by
  induction n generalizing i with
  | zero => simp
  | succ n ih =>
    cases i with
    | zero => simp [List.replicate_succ]
    | succ i => simp [List.replicate_succ, List.getD_cons_succ, ih]

/-- A defined entry of an indicator series, seen through `get?`. -/
theorem getD_none_eq_some {l : List FV} {i : ℕ} {v : ℚ} (h : l.getD i none = some v) :
    l.get? i = some (some v) := by
  cases ho : l.get? i with
  | none =>
    have hD : l.getD i none = none := by rw [List.getD_eq_get?, ho]; rfl
    rw [hD] at h
    cases h
  | some w =>
    have hD : l.getD i none = w := by rw [List.getD_eq_get?, ho]; rfl
    rw [hD] at h
    rw [h]

/-- C3, amended: at every position where the rolling averages of
`calculate_rsi` are formed, a zero average loss with a nonzero average
gain yields RSI exactly 100, while two zero averages yield the undefined
(NaN) sentinel — not 50 — so positions past warm-up can be NaN. -/
theorem c3_theorem (prices : List ℚ) (period i : ℕ) (g : ℚ)
    (hlen : period + 1 ≤ prices.length)
    (hg : (avg_gain_series prices period).getD i none = some g)
    (hl : (avg_loss_series prices period).getD i none = some 0) :
    (g ≠ 0 → (calculate_rsi prices period).getD i none = some 100) ∧
    (g = 0 → (calculate_rsi prices period).getD i none = none) := by
  have hnot : ¬prices.length < period + 1 := by omega
  have hg' := getD_none_eq_some hg
  have hl' := getD_none_eq_some hl
  have hmain : (calculate_rsi prices period).get? i = some (rsiAt g 0) := by
    unfold calculate_rsi
    rw [if_neg hnot]
    exact (List.get?_zipWith_eq_some _ _ _ (rsiAt g 0) i).mpr ⟨some g, some 0, hg', hl', rfl⟩
  have hD : (calculate_rsi prices period).getD i none = rsiAt g 0 := by
    rw [List.getD_eq_get?, hmain]; rfl
  constructor
  · intro hgne
    rw [hD]; unfold rsiAt; rw [if_pos rfl, if_neg hgne]
  · intro hg0
    rw [hD]; unfold rsiAt; rw [if_pos rfl, if_pos hg0]

/-- C3, witness: the amended theorem applied at period 1 to an uptrend
(RSI 100 at index 1) and to a constant pair (NaN at index 1). -/
theorem c3_witness :
    (calculate_rsi [1, 2, 3] 1).getD 1 none = some 100 ∧
    (calculate_rsi [5, 5] 1).getD 1 none = none :=
  ⟨(c3_theorem [1, 2, 3] 1 1 1 (by decide) (by decide) (by decide)).1 one_ne_zero,
   (c3_theorem [5, 5] 1 1 0 (by decide) (by decide) (by decide)).2 rfl⟩

/-- The peak list of `find_peaks_troughs`, unfolded. -/
theorem find_peaks_eq (s : List FV) (order : ℕ) :
    (find_peaks_troughs s order).1 =
      (List.range' order (s.length - order - order)).filter
        (fun i => (getF s i).isSome && is_peak s i order) := rfl

/-- The trough list of `find_peaks_troughs`, unfolded. -/
theorem find_troughs_eq (s : List FV) (order : ℕ) :
    (find_peaks_troughs s order).2 =
      (List.range' order (s.length - order - order)).filter
        (fun i => (getF s i).isSome && is_trough s i order) := rfl

set_option maxRecDepth 2000 in
/-- C7, amended: `find_peaks_troughs` reports `i` as a peak iff `i` is in
scan range, `series[i]` is defined, and NO point up to `order` steps on
either side is strictly greater (a tie does NOT disqualify); troughs are
mirrored with strictly smaller; and on the example series of the spec with
order 2, index 5 is the only reported peak. -/
theorem c7_theorem (s : List FV) (order i : ℕ) :
    (i ∈ (find_peaks_troughs s order).1 ↔
      order ≤ i ∧ i + order < s.length ∧ (getF s i).isSome = true ∧
        ∀ j, 1 ≤ j → j ≤ order →
          fgt (getF s (i - j)) (getF s i) = false ∧ fgt (getF s (i + j)) (getF s i) = false) ∧
    (i ∈ (find_peaks_troughs s order).2 ↔
      order ≤ i ∧ i + order < s.length ∧ (getF s i).isSome = true ∧
        ∀ j, 1 ≤ j → j ≤ order →
          flt (getF s (i - j)) (getF s i) = false ∧ flt (getF s (i + j)) (getF s i) = false) ∧
    (find_peaks_troughs c7Ex 2).1 = [5] := by
  refine ⟨?_, ?_, by decide⟩
  · rw [find_peaks_eq, List.mem_filter, List.mem_range'_1]
    simp only [is_peak, List.all_eq_true, Bool.and_eq_true, Bool.not_eq_true']
    constructor
    · rintro ⟨⟨hi1, hi2⟩, hsome, hall⟩
      refine ⟨hi1, by omega, hsome, fun j hj1 hj2 => ?_⟩
      exact hall j (List.mem_range'_1.mpr ⟨hj1, by omega⟩)
    · rintro ⟨hi1, hi2, hsome, hall⟩
      refine ⟨⟨hi1, by omega⟩, hsome, fun j hj => ?_⟩
      have hj' := List.mem_range'_1.mp hj
      exact hall j hj'.1 (by omega)
  · rw [find_troughs_eq, List.mem_filter, List.mem_range'_1]
    simp only [is_trough, List.all_eq_true, Bool.and_eq_true, Bool.not_eq_true']
    constructor
    · rintro ⟨⟨hi1, hi2⟩, hsome, hall⟩
      refine ⟨hi1, by omega, hsome, fun j hj1 hj2 => ?_⟩
      exact hall j (List.mem_range'_1.mpr ⟨hj1, by omega⟩)
    · rintro ⟨hi1, hi2, hsome, hall⟩
      refine ⟨⟨hi1, by omega⟩, hsome, fun j hj => ?_⟩
      have hj' := List.mem_range'_1.mp hj
      exact hall j hj'.1 (by omega)

/-- A `find?` scan with early exit returns the head of the filtered list. -/
theorem find?_eq_head?_filter {α : Type} (f : α → Bool) (l : List α) :
    l.find? f = (l.filter f).head? := by
  induction l with
  | nil => rfl
  | cons x t ih =>
    by_cases hx : f x = true
    · rw [List.find?_cons_of_pos _ hx, List.filter_cons_of_pos hx, List.head?_cons]
    · rw [List.find?_cons_of_neg _ (by simp [hx]), List.filter_cons_of_neg (by simp [hx]), ih]

/-- The head of a list is one of its members. -/
theorem head?_mem_of_eq_some {α : Type} {l : List α} {a : α} (h : l.head? = some a) : a ∈ l := by
  cases l with
  | nil => cases h
  | cons x t =>
    rw [List.head?_cons] at h
    cases h
    exact List.mem_cons_self _ _

/-- A boolean scan over `[c, c+n)` equals the decidable existential over
the same interval. -/
theorem any_range'_eq_decide (c n : ℕ) (g : ℕ → Bool) :
    (List.range' c n).any g = decide (∃ i ∈ Finset.Ico c (c + n), g i = true) := by
  apply Bool.eq_iff_iff.mpr
  rw [List.any_eq_true, decide_eq_true_eq]
  constructor
  · rintro ⟨x, hx, hg⟩
    have hx' := List.mem_range'_1.mp hx
    exact ⟨x, Finset.mem_Ico.mpr (by omega), hg⟩
  · rintro ⟨x, hx, hg⟩
    have hx' := Finset.mem_Ico.mp hx
    exact ⟨x, List.mem_range'_1.mpr (by omega), hg⟩

/-- Crossing indices selected from the window scan lie inside the window. -/
theorem head?_filter_lt_lookback {lookback c : ℕ} {f : ℕ → Bool}
    (h : ((List.range' 1 (lookback - 1)).filter f).head? = some c) : c < lookback := by
  have hm := head?_mem_of_eq_some h
  have := List.mem_range'_1.mp (List.mem_filter.mp hm).1
  omega

/-- C6, amended: `check_ema_cross_retest` equals the claim-style
description with "most recent crossing" corrected to the EARLIEST
crossing of the window: the selected crossing is the head of the
filtered crossing indices, and the flag is the existential retest over
the indices from the crossing to the end of the window. -/
theorem c6_theorem (prices : List ℚ) (ema13 ema21 : List FV) (lookback : ℕ) :
    check_ema_cross_retest prices ema13 ema21 lookback =
      crossRetestFirstSpec prices ema13 ema21 lookback := by
  unfold check_ema_cross_retest crossRetestFirstSpec
  by_cases h : prices.length < lookback
  · rw [if_pos h, if_pos h]
  · rw [if_neg h, if_neg h]
    rw [find?_eq_head?_filter, find?_eq_head?_filter]
    congr 1
    · cases hX : ((List.range' 1 (lookback - 1)).filter
          (fun i => crossUpAt (winF ema13 lookback) (winF ema21 lookback) i)).head? with
      | none => rfl
      | some c =>
        have hc : c < lookback := head?_filter_lt_lookback hX
        show (List.range' c (lookback - c)).any
            (fun i => retestAt (winQ prices lookback) (winF ema13 lookback) i) =
          decide (∃ i ∈ Finset.Ico c lookback,
            retestAt (winQ prices lookback) (winF ema13 lookback) i = true)
        rw [any_range'_eq_decide]
        simp only [Nat.add_sub_cancel' hc.le]
    · cases hX : ((List.range' 1 (lookback - 1)).filter
          (fun i => crossDownAt (winF ema13 lookback) (winF ema21 lookback) i)).head? with
      | none => rfl
      | some c =>
        have hc : c < lookback := head?_filter_lt_lookback hX
        show (List.range' c (lookback - c)).any
            (fun i => retestAt (winQ prices lookback) (winF ema13 lookback) i) =
          decide (∃ i ∈ Finset.Ico c lookback,
            retestAt (winQ prices lookback) (winF ema13 lookback) i = true)
        rw [any_range'_eq_decide]
        simp only [Nat.add_sub_cancel' hc.le]

/-- Per-step gains are nonnegative. -/
theorem gainOf_nonneg (d : FV) : 0 ≤ gainOf d := by
  cases d with
  | none => exact le_rfl
  | some x =>
    by_cases hx : 0 < x
    · simpa [gainOf, hx] using le_of_lt hx
    · simp [gainOf, hx]

/-- Per-step losses are nonnegative. -/
theorem lossOf_nonneg (d : FV) : 0 ≤ lossOf d := by
  cases d with
  | none => exact le_rfl
  | some x =>
    by_cases hx : x < 0
    · simp only [lossOf, if_pos hx]
      linarith
    · simp [lossOf, hx]

/-- Every element of the gain series is nonnegative. -/
theorem rsiGains_nonneg (prices : List ℚ) : ∀ x ∈ rsiGains prices, 0 ≤ x := by
  intro x hx
  obtain ⟨d, _, rfl⟩ := List.mem_map.mp hx
  exact gainOf_nonneg d

/-- Every element of the loss series is nonnegative. -/
theorem rsiLosses_nonneg (prices : List ℚ) : ∀ x ∈ rsiLosses prices, 0 ≤ x := by
  intro x hx
  obtain ⟨d, _, rfl⟩ := List.mem_map.mp hx
  exact lossOf_nonneg d

/-- A defined rolling mean of a nonnegative series is nonnegative. -/
theorem rollingMean_get?_nonneg {xs : List ℚ} {n i : ℕ} {v : ℚ}
    (hxs : ∀ x ∈ xs, 0 ≤ x) (h : (rollingMean xs n).get? i = some (some v)) : 0 ≤ v := by
  unfold rollingMean at h
  rw [List.get?_map] at h
  by_cases hi : i < xs.length
  · rw [List.get?_range (by simpa using hi)] at h
    simp only [Option.map_some'] at h
    by_cases hn : n ≤ i + 1
    · rw [if_pos hn] at h
      have hv : ((xs.take (i + 1)).drop (i + 1 - n)).sum / (n : ℚ) = v := by
        simpa using h
      rw [← hv]
      refine div_nonneg (List.sum_nonneg ?_) (by positivity)
      intro x hx
      exact hxs x (List.mem_of_mem_take (List.mem_of_mem_drop hx))
    · rw [if_neg hn] at h
      simp at h
  · rw [List.get?_eq_none.mpr (by simpa using Nat.le_of_not_lt hi)] at h
    cases h

/-- The RSI formula entry is in `[0, 100]` for nonnegative averages. -/
theorem rsiAt_bounds {g l q : ℚ} (hg : 0 ≤ g) (hl : 0 ≤ l) (h : rsiAt g l = some q) :
    0 ≤ q ∧ q ≤ 100 := by
  unfold rsiAt at h
  by_cases hl0 : l = 0
  · rw [if_pos hl0] at h
    by_cases hg0 : g = 0
    · rw [if_pos hg0] at h
      cases h
    · rw [if_neg hg0] at h
      cases h
      norm_num
  · rw [if_neg hl0] at h
    cases h
    have hlpos : 0 < l := lt_of_le_of_ne hl (Ne.symm hl0)
    have hrs : 0 ≤ g / l := div_nonneg hg hl
    constructor
    · have hle : 100 / (1 + g / l) ≤ 100 := div_le_self (by norm_num) (by linarith)
      linarith
    · have hpos : 0 < 100 / (1 + g / l) := div_pos (by norm_num) (by linarith)
      linarith

/-- Range invariant, RSI half: every defined entry of `calculate_rsi` is in `[0, 100]`. -/
theorem calculate_rsi_getD_bounds (prices : List ℚ) (period i : ℕ) (q : ℚ)
    (h : (calculate_rsi prices period).getD i none = some q) : 0 ≤ q ∧ q ≤ 100 := by
  have h' := getD_none_eq_some h
  unfold calculate_rsi at h'
  by_cases hlen : prices.length < period + 1
  · rw [if_pos hlen] at h'
    have hcontra : (List.replicate prices.length (none : FV)).getD i none = none :=
      getD_replicate_none _ _
    rw [List.getD_eq_get?, h'] at hcontra
    cases hcontra
  · rw [if_neg hlen] at h'
    obtain ⟨x, y, hx, hy, hf⟩ := (List.get?_zipWith_eq_some _ _ _ _ i).mp h'
    cases x with
    | none => cases y <;> cases hf
    | some gv =>
      cases y with
      | none => cases hf
      | some lv =>
        have hgv : 0 ≤ gv := rollingMean_get?_nonneg (rsiGains_nonneg prices) hx
        have hlv : 0 ≤ lv := rollingMean_get?_nonneg (rsiLosses_nonneg prices) hy
        exact rsiAt_bounds hgv hlv hf

/-- The invariant carried through the exponentially weighted mean: a
defined value lies in `[0, 100]`. -/
def InRange01 (v : FV) : Prop := ∀ q : ℚ, v = some q → 0 ≤ q ∧ q ≤ 100

/-- One `ewmStep` preserves the range invariant and weight nonnegativity
when `0 < α ≤ 1` and the incoming value is in range. -/
theorem ewmStep_invariant (α : ℚ) (h0 : 0 < α) (h1 : α ≤ 1) (st : EwmState) (x : FV)
    (hst : InRange01 st.avg) (hw : 0 ≤ st.oldWt) (hx : InRange01 x) :
    InRange01 (ewmStep α st x).avg ∧ 0 ≤ (ewmStep α st x).oldWt := by
  unfold ewmStep
  cases hsa : st.avg with
  | none =>
    cases x with
    | none =>
      constructor
      · intro q hq
        rw [hsa] at hq
        cases hq
      · exact hw
    | some v =>
      constructor
      · intro q hq
        cases hq
        exact hx _ rfl
      · norm_num
  | some y =>
    cases x with
    | none =>
      constructor
      · intro q hq
        cases hq
        exact hst _ hsa
      · exact mul_nonneg hw (by linarith)
    | some v =>
      have hy := hst y hsa
      have hv := hx v rfl
      have how : 0 ≤ st.oldWt * (1 - α) := mul_nonneg hw (by linarith)
      have hden : 0 < st.oldWt * (1 - α) + α := by linarith
      constructor
      · intro q hq
        cases hq
        constructor
        · exact div_nonneg
            (add_nonneg (mul_nonneg how hy.1) (mul_nonneg h0.le hv.1)) hden.le
        · rw [div_le_iff hden]
          have e1 : st.oldWt * (1 - α) * y ≤ st.oldWt * (1 - α) * 100 :=
            mul_le_mul_of_nonneg_left hy.2 how
          have e2 : α * v ≤ α * 100 := mul_le_mul_of_nonneg_left hv.2 h0.le
          nlinarith
      · norm_num

/-- Every defined output of the exponentially weighted mean lies in
`[0, 100]` when `0 < α ≤ 1`, the state satisfies the invariant, and all
defined inputs lie in `[0, 100]`. -/
theorem ewmGo_bounds (α : ℚ) (h0 : 0 < α) (h1 : α ≤ 1) :
    ∀ (xs : List FV) (st : EwmState), (∀ v ∈ xs, InRange01 v) → InRange01 st.avg →
      0 ≤ st.oldWt → ∀ q : ℚ, some q ∈ ewmGo α st xs → 0 ≤ q ∧ q ≤ 100 := by
  intro xs
  induction xs with
  | nil =>
    intro st _ _ _ q hq
    cases hq
  | cons x t ih =>
    intro st hxs hst hw q hq
    have hstep := ewmStep_invariant α h0 h1 st x hst hw (hxs x (List.mem_cons_self _ _))
    rw [ewmGo] at hq
    rcases List.mem_cons.mp hq with hq | hq
    · exact hstep.1 q hq.symm
    · exact ih (ewmStep α st x) (fun v hv => hxs v (List.mem_cons_of_mem _ hv))
        hstep.1 hstep.2 q hq

set_option maxHeartbeats 400000 in
/-- C8: every defined entry of `calculate_rsi` lies in `[0, 100]`, and so
does every defined entry of `calculate_smoothed_rsi` (for any smoothing
period of at least 1; pandas rejects `span < 1`). -/
theorem c8_theorem (prices : List ℚ) (rsi_period smooth_period i : ℕ) (q : ℚ) :
    ((calculate_rsi prices rsi_period).getD i none = some q → 0 ≤ q ∧ q ≤ 100) ∧
    (1 ≤ smooth_period →
      (calculate_smoothed_rsi prices rsi_period smooth_period).getD i none = some q →
        0 ≤ q ∧ q ≤ 100) := by
  constructor
  · exact fun h => calculate_rsi_getD_bounds prices rsi_period i q h
  · intro hsp h
    have h' := getD_none_eq_some h
    have hq : some q ∈ calculate_smoothed_rsi prices rsi_period smooth_period :=
      List.mem_iff_get?.mpr ⟨i, h'⟩
    unfold calculate_smoothed_rsi ewmMean at hq
    have h0 : 0 < 2 / ((smooth_period : ℚ) + 1) := by positivity
    have h1 : 2 / ((smooth_period : ℚ) + 1) ≤ 1 := by
      rw [div_le_one (by positivity)]
      have hc : (1 : ℚ) ≤ (smooth_period : ℚ) := by exact_mod_cast hsp
      linarith
    refine ewmGo_bounds _ h0 h1 (calculate_rsi prices rsi_period) ⟨none, 1⟩ ?_ ?_ ?_ q hq
    · intro v hv q' hq'
      obtain ⟨j, hj⟩ := List.mem_iff_get?.mp hv
      apply calculate_rsi_getD_bounds prices rsi_period j q'
      rw [List.getD_eq_get?, hj, hq']
      rfl
    · intro q' hq'
      cases hq'
    · exact zero_le_one

/-- C8, witness: the bounds theorem applied to a strictly increasing
series (RSI value 100 at index 13, period 14) and to a two-point series
whose smoothed RSI at index 1 is 100. -/
theorem c8_witness :
    ((calculate_rsi c8L 14).getD 13 none = some 100 ∧ (0 ≤ (100 : ℚ) ∧ (100 : ℚ) ≤ 100)) ∧
    ((calculate_smoothed_rsi [0, 1] 1 1).getD 1 none = some 100 ∧
      (0 ≤ (100 : ℚ) ∧ (100 : ℚ) ≤ 100)) :=
  ⟨⟨by decide, (c8_theorem c8L 14 9 13 100).1 (by decide)⟩,
   ⟨by decide, (c8_theorem [0, 1] 1 1 1 100).2 (by decide) (by decide)⟩⟩
